import Mathlib

/-!
Verification of the transaction field decoder and retry helper in
`src/index.ts` of ton-node-kit. The definitions below are a shallow
embedding of that file: the `@ton/ton` data reachable from the decoder
(`Transaction`, its incoming `Message`, the message `info` block and the
`body` cell) is modelled structurally, cells carry a bit list, slice
cursors carry an explicit offset, JavaScript numbers that can be `NaN`
are modelled with `Option Nat`, thrown errors with `Except String`.
-/

set_option autoImplicit false

/-! ### Data model (the parts of `@ton/ton` the decoder reads) -/

/-- Direction tag of a message `info` block: `internal`, `external-in` or
`external-out`. -/
inductive MsgType where
  | internal
  | externalIn
  | externalOut
deriving DecidableEq, Repr

/-- Sender address; opaque to the decoder, carried as its raw string form. -/
structure Address where
  raw : String
deriving DecidableEq, Repr

/-- The `value` field of an internal message info block; `coins` is an
unsigned big integer (nanotons), modelled as `Nat`. -/
structure CurrencyCollection where
  coins : Nat
deriving DecidableEq, Repr

/-- Message info block: classification tag, optional source address
(absent on some external messages) and optional coin value (absent on
non-internal messages). -/
structure CommonMessageInfo where
  type : MsgType
  src : Option Address
  value : Option CurrencyCollection
deriving DecidableEq, Repr

/-- A cell: an immutable sequence of bits (the decoder never reads cell
references, so they are not modelled). -/
structure Cell where
  bits : List Bool
deriving DecidableEq, Repr

/-- An incoming message: info block plus body cell. -/
structure Message where
  info : CommonMessageInfo
  body : Cell
deriving DecidableEq, Repr

/-- A transaction as read by the decoder: `inMessage` is optional. -/
structure Transaction where
  inMessage : Option Message
deriving DecidableEq, Repr

/-! ### Retry executor (`withRetry`, src/index.ts lines 13-28) -/

/-- Loop body of `withRetry`: `for (let i = 0; i < retries; i++)`. The
operation may be stateful across invocations, so it is modelled as a
function from the attempt index to an outcome. The extra fuel argument
is `retries - i` (positive exactly when the loop guard `i < retries`
holds), which makes the recursion structural. On success the loop
returns the result; on the last failing attempt (`i === retries - 1`)
it rethrows; otherwise it waits (`delay` has no observable effect in
this model) and retries. Falling out of the loop resolves the promise
with `undefined`, modelled as `Except.ok none`. -/
def withRetryGo {ε α : Type} (fn : Nat → Except ε α) (retries : Nat) :
    Nat → Nat → Except ε (Option α)
  | _, 0 => Except.ok none
  | i, remaining + 1 =>
    match fn i with
    | Except.ok a => Except.ok (some a)
    | Except.error e =>
      if i = retries - 1 then Except.error e
      else withRetryGo fn retries (i + 1) remaining

/-- Embedding of `withRetry(fn, retries = 3, delay = 1000)`. The defaults
of the source are not baked in; theorems pass `retries` and `delay`
explicitly. -/
def withRetry {ε α : Type} (fn : Nat → Except ε α) (retries : Nat)
    (delay : Nat) : Except ε (Option α) :=
  withRetryGo fn retries 0 retries

/-- The attempt indices at which `withRetry`'s loop invokes `fn`, in
order: the same loop as `withRetryGo`, recording `i` at each `fn()`
call site. -/
def withRetryCallsGo {ε α : Type} (fn : Nat → Except ε α) (retries : Nat) :
    Nat → Nat → List Nat
  | _, 0 => []
  | i, remaining + 1 =>
    i ::
      match fn i with
      | Except.ok _ => []
      | Except.error _ =>
        if i = retries - 1 then []
        else withRetryCallsGo fn retries (i + 1) remaining

/-- All attempt indices at which `withRetry fn retries delay` invokes
`fn`. -/
def withRetryCalls {ε α : Type} (fn : Nat → Except ε α) (retries : Nat) :
    List Nat :=
  withRetryCallsGo fn retries 0 retries

/-! ### Sender resolver (`getTxSender`, src/index.ts lines 35-38) -/

/-- The options object the README passes as a second argument
(`getTxSender(tx, { hex: true })`). The implementation in
src/index.ts declares only the `tx` parameter, and JavaScript silently
drops extra call arguments, so the embedding accepts the argument and,
like the source, never reads it. -/
structure GetTxSenderOptions where
  hex : Bool
deriving DecidableEq, Repr

/-- Embedding of `getTxSender`: `const inMsg = tx.inMessage; return
inMsg?.info.src;`. The `options` argument is ignored exactly as the
JavaScript call would ignore it. -/
def getTxSender (tx : Transaction) (options : GetTxSenderOptions) :
    Option Address :=
  match tx.inMessage with
  | none => none
  | some inMsg => inMsg.info.src

/-! ### Value amount resolver (`getTxValueAmount`, src/index.ts lines 51-72)
and the `fromNano` conversion it calls from `@ton/ton` -/

/-- Result type of `getTxValueAmount`: a string or a bigint. -/
inductive TxAmount where
  | str (s : String)
  | big (n : Nat)
deriving DecidableEq, Repr

/-- Trailing zeros of a digit run removed (the backtracking of the
greedy `[0-9]*[1-9]` regex group). -/
def dropTrailingZeros (s : List Char) : List Char :=
  (s.reverse.dropWhile (fun c => c == '0')).reverse

/-- Group 1 of `/^([0-9]*[1-9]|0)(0*)/` on a non-empty digit string: the
digits up to and including the last non-zero one, or the single digit
`0` when every digit is zero. -/
def fracGroup (s : List Char) : List Char :=
  let t := dropTrailingZeros s
  if t.isEmpty then ['0'] else t

/-- Embedding of `@ton/core`'s `fromNano` on the non-negative bigints
the decoder feeds it: split into whole part and 9-digit zero-padded
fraction, keep the fraction's significant prefix, print
`whole.fraction` and drop the dot when the fraction is zero. -/
def fromNano (v : Nat) : String :=
  let frac := v % 1000000000
  let facStr0 := (Nat.repr frac).data
  let facStr := fracGroup (List.replicate (9 - facStr0.length) '0' ++ facStr0)
  let whole := v / 1000000000
  Nat.repr whole ++ (if facStr = ['0'] then "" else "." ++ String.mk facStr)

/-- Options of `getTxValueAmount`. `currency` is `Option String`: `none`
models an options object without a `currency` field (`undefined`), and
any string value can be passed, as TypeScript's structural typing is not
enforced at runtime. A missing `returnBigint` is falsy, hence `Bool`. -/
structure GetTxValueAmountOptions where
  currency : Option String
  returnBigint : Bool
deriving DecidableEq, Repr

/-- The default for the omitted options argument:
`options: GetTxValueAmountOptions = { currency: 'ton' }`. -/
def defaultGetTxValueAmountOptions : GetTxValueAmountOptions :=
  { currency := some "ton", returnBigint := false }

/-- Template-literal rendering of the `currency` value inside
an error message: `undefined` prints as the string `undefined`. -/
def templateShow : Option String → String
  | none => "undefined"
  | some s => s

/-- The optional chain `tx.inMessage?.info.value?.coins`. -/
def rawCoins (tx : Transaction) : Option Nat :=
  (tx.inMessage.bind (fun m => m.info.value)).map (fun v => v.coins)

/-- Embedding of `getTxValueAmount`: read
`tx.inMessage?.info.value?.coins`; `if (!rawValue) throw` rejects both
a missing value (`undefined`) and the falsy bigint `0n`; then switch on
`options.currency` with cases `'ton'` and `'nano'` and a default that
throws naming the bad value. -/
def getTxValueAmount (tx : Transaction)
    (options : GetTxValueAmountOptions) : Except String TxAmount :=
  match rawCoins tx with
  | none => Except.error "Can't get currency from transaction"
  | some rawValue =>
    if rawValue = 0 then Except.error "Can't get currency from transaction"
    else if options.currency = some "ton" then
      Except.ok (TxAmount.str (fromNano rawValue))
    else if options.currency = some "nano" then
      Except.ok
        (if options.returnBigint then TxAmount.big rawValue
         else TxAmount.str (Nat.repr rawValue))
    else Except.error ("unknown currency " ++ templateShow options.currency)

/-! ### Direction classifiers -/

/-- Modelled from the spec: the direction classifiers are part of the
library's surface (the README imports `checkIsInternal`) but their code
is not in src/. Spec 4.2: "read the Incoming Message's Info
classification tag; return true iff it matches the respective tag
(`internal`, `external-out`, `external-in`). If there is no Incoming
Message, return false (not an error) for all three." -/
def isInternal (tx : Transaction) : Bool :=
  match tx.inMessage with
  | none => false
  | some m =>
    match m.info.type with
    | MsgType.internal => true
    | _ => false

/-- Modelled from the spec: see `isInternal`; the `external-out` tag. -/
def isExternalOut (tx : Transaction) : Bool :=
  match tx.inMessage with
  | none => false
  | some m =>
    match m.info.type with
    | MsgType.externalOut => true
    | _ => false

/-- Modelled from the spec: see `isInternal`; the `external-in` tag. -/
def isExternalIn (tx : Transaction) : Bool :=
  match tx.inMessage with
  | none => false
  | some m =>
    match m.info.type with
    | MsgType.externalIn => true
    | _ => false

/-! ### Bit and byte primitives for the body cell -/

/-- Big-endian value of a bit list (how `loadUint` assembles its bits). -/
def bitsVal (bs : List Bool) : Nat :=
  bs.foldl (fun a b => 2 * a + (if b then 1 else 0)) 0

/-- The 8 bits of a byte, most significant first. -/
def byteToBits (v : Nat) : List Bool :=
  [v / 128 % 2 == 1, v / 64 % 2 == 1, v / 32 % 2 == 1, v / 16 % 2 == 1,
   v / 8 % 2 == 1, v / 4 % 2 == 1, v / 2 % 2 == 1, v % 2 == 1]

/-- A byte sequence as a bit sequence (byte-aligned cell contents). -/
def bytesToBits : List Nat → List Bool
  | [] => []
  | v :: rest => byteToBits v ++ bytesToBits rest

/-- Whole bytes of a bit sequence, 8 bits at a time (any trailing group
of fewer than 8 bits is never produced on the aligned inputs this is
used on). -/
def bytesOfBits : List Bool → List Nat
  | b0 :: b1 :: b2 :: b3 :: b4 :: b5 :: b6 :: b7 :: rest =>
    bitsVal [b0, b1, b2, b3, b4, b5, b6, b7] :: bytesOfBits rest
  | _ => []

/-- Uppercase hexadecimal digit, as `Buffer.toString('hex').toUpperCase()`
prints one. -/
def hexChar (d : Nat) : Char :=
  List.getD ['0', '1', '2', '3', '4', '5', '6', '7', '8', '9', 'A', 'B',
    'C', 'D', 'E', 'F'] d '0'

/-- Two hex digits of a byte. -/
def byteToHex (v : Nat) : List Char := [hexChar (v / 16), hexChar (v % 16)]

/-- Hex dump of a byte sequence. -/
def bytesToHexChars : List Nat → List Char
  | [] => []
  | v :: rest => byteToHex v ++ bytesToHexChars rest

/-- `bitsToPaddedBuffer`: pad the bits to a byte boundary with a single
1 bit followed by 0 bits (no padding when already aligned). -/
def paddedBits (bits : List Bool) : List Bool :=
  if bits.length % 8 == 0 then bits
  else bits ++ true :: List.replicate (7 - bits.length % 8) false

/-- `BitString.toString()` of `@ton/core`: hex-dump the padded buffer;
when the length is a multiple of 4 but not of 8 drop the padding
nibble, and when it is not a multiple of 4 mark the padding with a
trailing underscore. -/
def bitsDump (bits : List Bool) : List Char :=
  let n := bits.length
  let hex := bytesToHexChars (bytesOfBits (paddedBits bits))
  if n % 4 == 0 then (if n % 8 == 0 then hex else hex.dropLast)
  else (if n % 8 ≤ 4 then hex.dropLast ++ ['_'] else hex ++ ['_'])

/-! ### `parseInt(s, 16)` and the hex-pair loop of `getTxComment` -/

/-- Hexadecimal digit test of `parseInt`'s radix-16 alphabet. -/
def isHexDigitChar (c : Char) : Bool :=
  ('0' ≤ c && c ≤ '9') || ('a' ≤ c && c ≤ 'f') || ('A' ≤ c && c ≤ 'F')

/-- Value of one hexadecimal digit. -/
def hexDigitVal (c : Char) : Nat :=
  if '0' ≤ c && c ≤ '9' then c.toNat - 48
  else if 'a' ≤ c && c ≤ 'f' then c.toNat - 87
  else c.toNat - 55

/-- `parseInt(s, 16)` on the character data the cell dump produces (no
whitespace or sign occurs there): strip an optional `0x`/`0X` prefix,
read the longest prefix of hex digits, and yield `none` (JavaScript's
`NaN`) when there is none. -/
def parseIntHex (cs : List Char) : Option Nat :=
  let cs1 :=
    match cs with
    | '0' :: 'x' :: rest => rest
    | '0' :: 'X' :: rest => rest
    | other => other
  let ds := cs1.takeWhile isHexDigitChar
  if ds.isEmpty then none
  else some (ds.foldl (fun a c => 16 * a + hexDigitVal c) 0)

/-- The loop `for (let i = 0; i < hexString.length; i += 2)
byteArray.push(parseInt(hexString.substring(i, i + 2), 16))`:
`substring` clamps at the end of the string, so the last chunk may be a
single character. -/
def parseHexPairs : List Char → List (Option Nat)
  | [] => []
  | [c] => [parseIntHex [c]]
  | c1 :: c2 :: rest => parseIntHex [c1, c2] :: parseHexPairs rest

/-- `new Uint8Array(byteArray)` coerces each element: `NaN` becomes 0,
a number is reduced modulo 256. -/
def jsToUint8 : Option Nat → Nat
  | none => 0
  | some v => v % 256

/-! ### `TextDecoder().decode` (WHATWG UTF-8 decode with replacement) -/

/-- Decoder state between bytes: accumulated code point, number of
continuation bytes still needed, and the admissible range of the next
byte. -/
structure Utf8State where
  codepoint : Nat
  needed : Nat
  lower : Nat
  upper : Nat
deriving DecidableEq, Repr

/-- Fresh decoder state. -/
def utf8Init : Utf8State := ⟨0, 0, 128, 191⟩

/-- What a byte does when the decoder needs no continuation: emit a
character (possibly U+FFFD) or enter a multi-byte sequence. -/
inductive LeadResult where
  | emit (c : Char)
  | cont (st : Utf8State)

/-- WHATWG lead-byte handling: ASCII is emitted; a stray continuation
byte or overlong lead (0x80..0xC1) and anything above 0xF4 are errors;
0xC2..0xDF, 0xE0..0xEF and 0xF0..0xF4 open 2-, 3- and 4-byte sequences,
with the narrowed second-byte ranges of 0xE0, 0xED, 0xF0 and 0xF4. -/
def leadByte (b : Nat) : LeadResult :=
  if b ≤ 127 then LeadResult.emit (Char.ofNat b)
  else if b ≤ 193 then LeadResult.emit (Char.ofNat 65533)
  else if b ≤ 223 then LeadResult.cont ⟨b - 192, 1, 128, 191⟩
  else if b ≤ 239 then
    LeadResult.cont
      ⟨b - 224, 2, if b = 224 then 160 else 128, if b = 237 then 159 else 191⟩
  else if b ≤ 244 then
    LeadResult.cont
      ⟨b - 240, 3, if b = 240 then 144 else 128, if b = 244 then 143 else 191⟩
  else LeadResult.emit (Char.ofNat 65533)

/-- WHATWG UTF-8 decoding loop with replacement (`fatal: false`): an
in-range continuation byte extends the code point; an out-of-range one
emits U+FFFD and reprocesses the byte as a lead byte; a sequence left
open at the end of input emits one U+FFFD. -/
def utf8DecodeLoop (st : Utf8State) : List Nat → List Char
  | [] => if st.needed = 0 then [] else [Char.ofNat 65533]
  | b :: rest =>
    if st.needed = 0 then
      match leadByte b with
      | LeadResult.emit c => c :: utf8DecodeLoop utf8Init rest
      | LeadResult.cont st2 => utf8DecodeLoop st2 rest
    else if st.lower ≤ b ∧ b ≤ st.upper then
      let cp := st.codepoint * 64 + (b - 128)
      if st.needed = 1 then Char.ofNat cp :: utf8DecodeLoop utf8Init rest
      else utf8DecodeLoop ⟨cp, st.needed - 1, 128, 191⟩ rest
    else
      Char.ofNat 65533 ::
        match leadByte b with
        | LeadResult.emit c => c :: utf8DecodeLoop utf8Init rest
        | LeadResult.cont st2 => utf8DecodeLoop st2 rest

/-- `new TextDecoder().decode(bytes)` as a code-point list. BOM
stripping never fires on the inputs `getTxComment` produces (they
always start with the 0 byte coming from the `"x{"` chunk), so it is
not modelled. -/
def utf8Decode (bytes : List Nat) : List Char := utf8DecodeLoop utf8Init bytes

/-- `commentText.replace(/^\x00+|\x00+$/g, '')`: the leading run and
the trailing run of NUL characters removed. -/
def stripNulChars (cs : List Char) : List Char :=
  ((cs.dropWhile (fun c => c == Char.ofNat 0)).reverse.dropWhile
    (fun c => c == Char.ofNat 0)).reverse

/-! ### Slices (`Cell.beginParse`, `Slice.clone`, `Slice.loadUint`,
`Slice.toString`) -/

/-- A slice: a read cursor over a cell, with the bits consumed so far
recorded in `offset`. -/
structure Slice where
  cell : Cell
  offset : Nat
deriving DecidableEq, Repr

/-- `cell.beginParse()`: a fresh cursor at offset 0. -/
def Cell.beginParse (c : Cell) : Slice := ⟨c, 0⟩

/-- `slice.clone()`: an independent cursor at the same position. -/
def Slice.clone (s : Slice) : Slice := ⟨s.cell, s.offset⟩

/-- The bits a slice has not consumed yet. -/
def Slice.remainingBits (s : Slice) : List Bool := s.cell.bits.drop s.offset

/-- `slice.loadUint(bits)`: big-endian read of `bits` bits, advancing
the cursor; reading past the end throws the bounds error of
`BitString.at` (whose message prints the first out-of-range absolute
index, here the bit length itself, on both sides of the `>`). -/
def Slice.loadUint (s : Slice) (bits : Nat) : Except String (Nat × Slice) :=
  if s.cell.bits.length < s.offset + bits then
    Except.error ("Index " ++ Nat.repr s.cell.bits.length ++ " > " ++
      Nat.repr s.cell.bits.length ++ " is out of bounds")
  else
    Except.ok
      (bitsVal ((s.cell.bits.drop s.offset).take bits), ⟨s.cell, s.offset + bits⟩)

/-- `body.toString()` = `Slice.toString` = the cell dump
`x{<bits as hex>}` of the remaining bits (no cell references in this
model, so no further lines). -/
def sliceToStringChars (s : Slice) : List Char :=
  'x' :: '{' :: (bitsDump s.remainingBits ++ ['}'])

/-! ### Comment decoder (`getTxComment`, src/index.ts lines 80-104) -/

/-- Embedding of `getTxComment`. With no incoming message the optional
chain leaves `body` undefined, `op = body?.loadUint(32)` is undefined
and the strict check `op !== 0` throws the `op != 0` error. With a
message, a clone of a fresh parse cursor reads the 32-bit operation
code (a short body makes `loadUint` throw its bounds error), a non-zero
code throws the `op != 0` error, and otherwise the remainder is dumped
as `x{..}`, chopped into 2-character chunks fed to `parseInt(-, 16)`
(the chunks overlapping `x{` and `}` give `NaN`, which `Uint8Array`
coerces to 0), UTF-8-decoded, and stripped of leading and trailing NUL
characters. -/
def getTxComment (tx : Transaction) : Except String String :=
  match tx.inMessage with
  | none => Except.error "op != 0, can't get tx message"
  | some inMsg =>
    let originalBody := inMsg.body.beginParse
    let body := originalBody.clone
    match body.loadUint 32 with
    | Except.error e => Except.error e
    | Except.ok res =>
      if res.1 ≠ 0 then Except.error "op != 0, can't get tx message"
      else
        let hexString := sliceToStringChars res.2
        let byteArray := parseHexPairs hexString
        let commentText := utf8Decode (byteArray.map jsToUint8)
        Except.ok (String.mk (stripNulChars commentText))

/-- Two successive independent `getTxComment` calls on the same
transaction, as a caller retrying or double-checking would make them:
each call opens its own cursor via `beginParse().clone()`, and the
transaction value is never written, so the pair records what the first
and the second reader observe. -/
def getTxCommentTwice (tx : Transaction) :
    Except String String × Except String String :=
  (getTxComment tx, getTxComment tx)

/-! ### Supporting lemmas -/

theorem bytesToBits_append (l1 l2 : List Nat) :
    bytesToBits (l1 ++ l2) = bytesToBits l1 ++ bytesToBits l2 := by
  induction l1 with
  | nil => simp [bytesToBits]
  | cons v rest ih => simp [bytesToBits, ih]

theorem length_bytesToBits (l : List Nat) :
    (bytesToBits l).length = 8 * l.length := by
  induction l with
  | nil => simp [bytesToBits]
  | cons v rest ih =>
    simp [bytesToBits, byteToBits, List.length_append, ih]
    omega

set_option maxRecDepth 4096 in
theorem bitsVal_byteToBits : ∀ v, v < 256 → bitsVal (byteToBits v) = v := by
  decide

set_option maxRecDepth 4096 in
theorem parseIntHex_byteToHex : ∀ v, v < 256 → parseIntHex (byteToHex v) = some v := by
  decide

theorem bytesOfBits_bytesToBits (l : List Nat) (h : ∀ x ∈ l, x < 256) :
    bytesOfBits (bytesToBits l) = l := by
  induction l with
  | nil => rfl
  | cons v rest ih =>
    have hv : v < 256 := h v (by simp)
    have hr : ∀ x ∈ rest, x < 256 := fun x hx => h x (by simp [hx])
    have hval := bitsVal_byteToBits v hv
    show bytesOfBits (byteToBits v ++ bytesToBits rest) = v :: rest
    simp only [byteToBits] at hval ⊢
    simp only [List.append_eq, List.cons_append, List.nil_append, bytesOfBits]
    rw [ih hr]
    exact congrArg (fun x => x :: rest) hval

theorem bitsDump_bytesToBits (l : List Nat) (h : ∀ x ∈ l, x < 256) :
    bitsDump (bytesToBits l) = bytesToHexChars l := by
  have hlen := length_bytesToBits l
  have h8 : (bytesToBits l).length % 8 = 0 := by omega
  have h4 : (bytesToBits l).length % 4 = 0 := by omega
  unfold bitsDump paddedBits
  simp [h8, h4, bytesOfBits_bytesToBits l h]

theorem parseHexPairs_bytes (l : List Nat) (h : ∀ x ∈ l, x < 256) :
    parseHexPairs (bytesToHexChars l ++ ['}']) = l.map some ++ [none] := by
  induction l with
  | nil => rfl
  | cons v rest ih =>
    have hv : v < 256 := h v (by simp)
    have hr : ∀ x ∈ rest, x < 256 := fun x hx => h x (by simp [hx])
    have hp := parseIntHex_byteToHex v hv
    show parseHexPairs (byteToHex v ++ bytesToHexChars rest ++ ['}']) = _
    simp only [byteToHex] at hp ⊢
    simp only [List.append_eq, List.cons_append, List.nil_append, parseHexPairs,
      List.append_assoc]
    rw [ih hr, hp]
    rfl

theorem map_mod256 (l : List Nat) (h : ∀ x ∈ l, x < 256) :
    l.map (fun v => v % 256) = l := by
  induction l with
  | nil => rfl
  | cons v rest ih =>
    have hv : v < 256 := h v (by simp)
    simp [ih (fun x hx => h x (by simp [hx])), Nat.mod_eq_of_lt hv]

theorem map_jsToUint8 (l : List Nat) (h : ∀ x ∈ l, x < 256) :
    (none :: (l.map some ++ [none])).map jsToUint8 = 0 :: (l ++ [0]) := by
  simp only [List.map_cons, List.map_append, List.map_map]
  show _ :: (l.map (fun v => jsToUint8 (some v)) ++ _) = _
  simp only [jsToUint8]
  rw [map_mod256 l h]
  rfl

theorem dropWhile_append_eq {α : Type} (p : α → Bool) (l1 l2 : List α) :
    List.dropWhile p (l1 ++ l2) =
      if (List.dropWhile p l1).isEmpty then List.dropWhile p l2
      else List.dropWhile p l1 ++ l2 := by
  induction l1 with
  | nil => simp
  | cons a l ih =>
    by_cases hp : p a <;> simp [List.dropWhile_cons, hp, ih]

theorem stripNulChars_cons_nul (cs : List Char) :
    stripNulChars (Char.ofNat 0 :: cs) = stripNulChars cs := by
  simp [stripNulChars, List.dropWhile_cons]

theorem stripNulChars_append_nul (cs : List Char) :
    stripNulChars (cs ++ [Char.ofNat 0]) = stripNulChars cs := by
  unfold stripNulChars
  rw [dropWhile_append_eq]
  by_cases he : (List.dropWhile (fun c => c == Char.ofNat 0) cs).isEmpty
  · rw [if_pos he]
    rw [List.isEmpty_iff] at he
    rw [he]
    rfl
  · rw [if_neg he]
    rw [List.reverse_append]
    simp [List.dropWhile_cons]

theorem utf8DecodeLoop_zero_cons (l : List Nat) :
    utf8DecodeLoop utf8Init (0 :: l) = Char.ofNat 0 :: utf8DecodeLoop utf8Init l := rfl

theorem leadByte_lower (b : Nat) (st : Utf8State)
    (h : leadByte b = LeadResult.cont st) : 128 ≤ st.lower := by
  unfold leadByte at h
  split_ifs at h <;> simp at h <;> subst h <;> simp

theorem utf8Init_lower : 128 ≤ utf8Init.lower := le_refl 128

theorem utf8DecodeLoop_append_zero (l : List Nat) :
    ∀ st : Utf8State, 128 ≤ st.lower →
      utf8DecodeLoop st (l ++ [0]) = utf8DecodeLoop st l ++ [Char.ofNat 0] := by
  induction l with
  | nil =>
    intro st hst
    by_cases hn : st.needed = 0
    · show utf8DecodeLoop st [0] = _
      simp [utf8DecodeLoop, hn, leadByte, utf8Init]
    · show utf8DecodeLoop st [0] = _
      have hb : st.lower ≠ 0 := by omega
      simp [utf8DecodeLoop, hn, hb, leadByte, utf8Init]
  | cons b rest ih =>
    intro st hst
    show utf8DecodeLoop st (b :: (rest ++ [0])) = _
    by_cases hn : st.needed = 0
    · cases hlb : leadByte b with
      | emit c => simp [utf8DecodeLoop, hn, hlb, utf8Init, ih ⟨0, 0, 128, 191⟩ (le_refl 128)]
      | cont st2 => simp [utf8DecodeLoop, hn, hlb, utf8Init, ih st2 (leadByte_lower b st2 hlb)]
    · by_cases hin : st.lower ≤ b ∧ b ≤ st.upper
      · by_cases h1 : st.needed = 1
        · simp [utf8DecodeLoop, hn, hin, h1, utf8Init, ih ⟨0, 0, 128, 191⟩ (le_refl 128)]
        · simp [utf8DecodeLoop, hn, hin, h1, utf8Init,
            ih ⟨st.codepoint * 64 + (b - 128), st.needed - 1, 128, 191⟩ (le_refl 128)]
      · cases hlb : leadByte b with
        | emit c => simp [utf8DecodeLoop, hn, hin, hlb, utf8Init, ih ⟨0, 0, 128, 191⟩ (le_refl 128)]
        | cont st2 => simp [utf8DecodeLoop, hn, hin, hlb, utf8Init, ih st2 (leadByte_lower b st2 hlb)]

theorem utf8Decode_wrap_zeros (l : List Nat) :
    utf8Decode (0 :: (l ++ [0])) =
      Char.ofNat 0 :: (utf8Decode l ++ [Char.ofNat 0]) := by
  unfold utf8Decode
  rw [utf8DecodeLoop_zero_cons, utf8DecodeLoop_append_zero l utf8Init utf8Init_lower]

/-- C1: a body holding the 32-bit zero operation code and then the bytes
`b` decodes to the UTF-8 reading of `b` with leading and trailing NULs
stripped. -/
theorem getTxComment_zero_op (b : List Nat) (tx : Transaction) (inMsg : Message)
    (hmsg : tx.inMessage = some inMsg)
    (hbody : inMsg.body.bits = bytesToBits ([0, 0, 0, 0] ++ b))
    (hb : ∀ x ∈ b, x < 256) :
    getTxComment tx = Except.ok (String.mk (stripNulChars (utf8Decode b))) := by
  have hsplit : bytesToBits ([0, 0, 0, 0] ++ b) =
      bytesToBits [0, 0, 0, 0] ++ bytesToBits b := bytesToBits_append _ _
  have hlen4 : (bytesToBits [0, 0, 0, 0] : List Bool).length = 32 := rfl
  have hlen : inMsg.body.bits.length = 32 + (bytesToBits b).length := by
    rw [hbody, hsplit, List.length_append, hlen4]
  unfold getTxComment
  rw [hmsg]
  simp only [Cell.beginParse, Slice.clone, Slice.loadUint, Nat.zero_add]
  rw [if_neg (by omega)]
  simp only [List.drop_zero]
  rw [hbody, hsplit, List.take_left' hlen4]
  have hz : bitsVal (bytesToBits [0, 0, 0, 0]) = 0 := rfl
  rw [hz]
  rw [if_neg (by simp)]
  simp only [sliceToStringChars, Slice.remainingBits]
  rw [hbody, hsplit, List.drop_left' hlen4]
  rw [bitsDump_bytesToBits b hb]
  simp only [parseHexPairs]
  rw [parseHexPairs_bytes b hb]
  have hxl : parseIntHex ['x', '{'] = none := rfl
  rw [hxl]
  rw [map_jsToUint8 b hb]
  rw [utf8Decode_wrap_zeros b]
  rw [stripNulChars_cons_nul, stripNulChars_append_nul]

/-- C1 witness: the spec's example body `00 00 00 00 48 65 6C 6C 6F`
yields `"Hello"`. -/
theorem getTxComment_zero_op_witness :
    getTxComment ⟨some ⟨⟨MsgType.internal, none, none⟩,
      ⟨bytesToBits [0, 0, 0, 0, 72, 101, 108, 108, 111]⟩⟩⟩ = Except.ok "Hello" := by
  have := getTxComment_zero_op [72, 101, 108, 108, 111]
    ⟨some ⟨⟨MsgType.internal, none, none⟩,
      ⟨bytesToBits [0, 0, 0, 0, 72, 101, 108, 108, 111]⟩⟩⟩
    ⟨⟨MsgType.internal, none, none⟩,
      ⟨bytesToBits [0, 0, 0, 0, 72, 101, 108, 108, 111]⟩⟩
    rfl rfl (by decide)
  exact this.trans rfl

/-- C2 (amended): with no incoming message `getTxComment` throws the
`op != 0` error (the undefined opcode fails the strict zero check), and
with a body shorter than 32 bits it throws the out-of-bounds error of
the 32-bit read; neither case returns the empty string. -/
theorem getTxComment_absent_or_short (tx : Transaction) :
    (tx.inMessage = none →
      getTxComment tx = Except.error "op != 0, can't get tx message") ∧
    (∀ inMsg : Message, tx.inMessage = some inMsg →
      inMsg.body.bits.length < 32 →
      getTxComment tx = Except.error ("Index " ++ Nat.repr inMsg.body.bits.length ++
        " > " ++ Nat.repr inMsg.body.bits.length ++ " is out of bounds")) := by
  constructor
  · intro h
    simp [getTxComment, h]
  · intro inMsg h hl
    unfold getTxComment
    rw [h]
    simp only [Cell.beginParse, Slice.clone, Slice.loadUint, Nat.zero_add]
    rw [if_pos hl]

/-- C2 counterexample: the claim "returns the empty string and does not
throw" is false at a transaction with no incoming message and at one
whose body is a single bit. -/
theorem getTxComment_absent_or_short_counterexample :
    getTxComment ⟨none⟩ ≠ Except.ok "" ∧
    getTxComment ⟨some ⟨⟨MsgType.internal, none, none⟩, ⟨[true]⟩⟩⟩ ≠
      Except.ok "" := by
  constructor
  · rw [show getTxComment ⟨none⟩ =
        Except.error "op != 0, can't get tx message" from rfl]
    simp
  · rw [show getTxComment ⟨some ⟨⟨MsgType.internal, none, none⟩, ⟨[true]⟩⟩⟩ =
        Except.error "Index 1 > 1 is out of bounds" from rfl]
    simp

/-- C2 witness: the amended claim at a transaction with no incoming
message and at one with a 1-bit body. -/
theorem getTxComment_absent_or_short_witness :
    getTxComment ⟨none⟩ = Except.error "op != 0, can't get tx message" ∧
    getTxComment ⟨some ⟨⟨MsgType.internal, none, none⟩, ⟨[true]⟩⟩⟩ =
      Except.error "Index 1 > 1 is out of bounds" := by
  constructor
  · exact (getTxComment_absent_or_short ⟨none⟩).1 rfl
  · exact ((getTxComment_absent_or_short
      ⟨some ⟨⟨MsgType.internal, none, none⟩, ⟨[true]⟩⟩⟩).2
      ⟨⟨MsgType.internal, none, none⟩, ⟨[true]⟩⟩ rfl (by decide)).trans rfl

/-- C3: a body opening with a non-zero 32-bit operation code makes
`getTxComment` throw the `op != 0` error, and a second independent call
on the same transaction observes the same body and the same outcome
(each call reads through its own `beginParse().clone()` cursor and the
transaction is never written). -/
theorem getTxComment_nonzero_op (tx : Transaction) (inMsg : Message)
    (opBits rest : List Bool) (hmsg : tx.inMessage = some inMsg)
    (hbody : inMsg.body.bits = opBits ++ rest) (hlen : opBits.length = 32)
    (hop : bitsVal opBits ≠ 0) :
    getTxComment tx = Except.error "op != 0, can't get tx message" ∧
    getTxCommentTwice tx =
      (Except.error "op != 0, can't get tx message",
       Except.error "op != 0, can't get tx message") := by
  have h1 : getTxComment tx = Except.error "op != 0, can't get tx message" := by
    unfold getTxComment
    rw [hmsg]
    simp only [Cell.beginParse, Slice.clone, Slice.loadUint, Nat.zero_add]
    rw [hbody]
    rw [if_neg (by rw [List.length_append, hlen]; omega)]
    simp only [List.drop_zero]
    rw [List.take_left' hlen]
    rw [if_pos hop]
  exact ⟨h1, by rw [getTxCommentTwice, h1]⟩

/-- C3 witness: operation code 1 (body bytes `00 00 00 01`). -/
theorem getTxComment_nonzero_op_witness :
    getTxComment ⟨some ⟨⟨MsgType.internal, none, none⟩,
      ⟨bytesToBits [0, 0, 0, 1]⟩⟩⟩ =
      Except.error "op != 0, can't get tx message" ∧
    getTxCommentTwice ⟨some ⟨⟨MsgType.internal, none, none⟩,
      ⟨bytesToBits [0, 0, 0, 1]⟩⟩⟩ =
      (Except.error "op != 0, can't get tx message",
       Except.error "op != 0, can't get tx message") :=
  getTxComment_nonzero_op
    ⟨some ⟨⟨MsgType.internal, none, none⟩, ⟨bytesToBits [0, 0, 0, 1]⟩⟩⟩
    ⟨⟨MsgType.internal, none, none⟩, ⟨bytesToBits [0, 0, 0, 1]⟩⟩
    (bytesToBits [0, 0, 0, 1]) [] rfl (by simp) rfl (by decide)

/-- C4: a missing or zero coin value makes `getTxValueAmount` throw the
"cannot get amount" error, whatever the options. -/
theorem getTxValueAmount_missing_or_zero (tx : Transaction)
    (options : GetTxValueAmountOptions)
    (h : rawCoins tx = none ∨ rawCoins tx = some 0) :
    getTxValueAmount tx options =
      Except.error "Can't get currency from transaction" := by
  rcases h with h | h
  · unfold getTxValueAmount
    rw [h]
  · unfold getTxValueAmount
    rw [h]
    rfl

/-- C4 witness: a transaction with no incoming message and one whose
value is the bigint 0, under both the default and the nano options. -/
theorem getTxValueAmount_missing_or_zero_witness :
    getTxValueAmount ⟨none⟩ defaultGetTxValueAmountOptions =
      Except.error "Can't get currency from transaction" ∧
    getTxValueAmount ⟨some ⟨⟨MsgType.internal, none, some ⟨0⟩⟩, ⟨[]⟩⟩⟩
      ⟨some "nano", true⟩ = Except.error "Can't get currency from transaction" :=
  ⟨getTxValueAmount_missing_or_zero ⟨none⟩ defaultGetTxValueAmountOptions
      (Or.inl rfl),
   getTxValueAmount_missing_or_zero
      ⟨some ⟨⟨MsgType.internal, none, some ⟨0⟩⟩, ⟨[]⟩⟩⟩ ⟨some "nano", true⟩
      (Or.inr rfl)⟩

/-- C5: coin value 50000000 gives the bigint 50000000 under
`{currency:'nano', returnBigint:true}`, the string "50000000" under
`{currency:'nano'}`, and the string "0.05" under `{currency:'ton'}` and
under the omitted-options default. -/
theorem getTxValueAmount_fifty_million (tx : Transaction)
    (h : rawCoins tx = some 50000000) :
    getTxValueAmount tx ⟨some "nano", true⟩ = Except.ok (TxAmount.big 50000000) ∧
    getTxValueAmount tx ⟨some "nano", false⟩ =
      Except.ok (TxAmount.str "50000000") ∧
    getTxValueAmount tx ⟨some "ton", false⟩ = Except.ok (TxAmount.str "0.05") ∧
    getTxValueAmount tx defaultGetTxValueAmountOptions =
      Except.ok (TxAmount.str "0.05") := by
  refine ⟨?_, ?_, ?_, ?_⟩ <;> (unfold getTxValueAmount; rw [h]; rfl)

/-- C5 witness: a transaction whose incoming message carries the coin
value 50000000. -/
theorem getTxValueAmount_fifty_million_witness :
    getTxValueAmount ⟨some ⟨⟨MsgType.internal, none, some ⟨50000000⟩⟩, ⟨[]⟩⟩⟩
      ⟨some "nano", true⟩ = Except.ok (TxAmount.big 50000000) ∧
    getTxValueAmount ⟨some ⟨⟨MsgType.internal, none, some ⟨50000000⟩⟩, ⟨[]⟩⟩⟩
      ⟨some "nano", false⟩ = Except.ok (TxAmount.str "50000000") ∧
    getTxValueAmount ⟨some ⟨⟨MsgType.internal, none, some ⟨50000000⟩⟩, ⟨[]⟩⟩⟩
      ⟨some "ton", false⟩ = Except.ok (TxAmount.str "0.05") ∧
    getTxValueAmount ⟨some ⟨⟨MsgType.internal, none, some ⟨50000000⟩⟩, ⟨[]⟩⟩⟩
      defaultGetTxValueAmountOptions = Except.ok (TxAmount.str "0.05") :=
  getTxValueAmount_fifty_million
    ⟨some ⟨⟨MsgType.internal, none, some ⟨50000000⟩⟩, ⟨[]⟩⟩⟩ rfl

/-- C6: on a present non-zero coin value, a currency that is neither
'ton' nor 'nano' (an explicitly passed options object without a
currency field included) throws the "unknown currency" error carrying
the template-rendered offending value. -/
theorem getTxValueAmount_unknown_currency (tx : Transaction)
    (options : GetTxValueAmountOptions) (v : Nat) (hv : rawCoins tx = some v)
    (h0 : v ≠ 0) (hton : options.currency ≠ some "ton")
    (hnano : options.currency ≠ some "nano") :
    getTxValueAmount tx options =
      Except.error ("unknown currency " ++ templateShow options.currency) := by
  unfold getTxValueAmount
  rw [hv]
  simp only [if_neg h0, if_neg hton, if_neg hnano]

/-- C6 witness: options `{}` (currency undefined) on coin value 1 throw
`unknown currency undefined`, and a misspelled currency is echoed. -/
theorem getTxValueAmount_unknown_currency_witness :
    getTxValueAmount ⟨some ⟨⟨MsgType.internal, none, some ⟨1⟩⟩, ⟨[]⟩⟩⟩
      ⟨none, false⟩ = Except.error "unknown currency undefined" ∧
    getTxValueAmount ⟨some ⟨⟨MsgType.internal, none, some ⟨1⟩⟩, ⟨[]⟩⟩⟩
      ⟨some "TON", false⟩ = Except.error "unknown currency TON" :=
  ⟨(getTxValueAmount_unknown_currency
      ⟨some ⟨⟨MsgType.internal, none, some ⟨1⟩⟩, ⟨[]⟩⟩⟩ ⟨none, false⟩ 1 rfl
      (by decide) (by decide) (by decide)).trans rfl,
   (getTxValueAmount_unknown_currency
      ⟨some ⟨⟨MsgType.internal, none, some ⟨1⟩⟩, ⟨[]⟩⟩⟩ ⟨some "TON", false⟩ 1 rfl
      (by decide) (by decide) (by decide)).trans rfl⟩

theorem withRetryGo_all_error {ε α : Type} (fn : Nat → Except ε α)
    (err : Nat → ε) (h : ∀ k, fn k = Except.error (err k)) (retries : Nat) :
    ∀ remaining i : Nat, i + remaining = retries → 1 ≤ remaining →
      withRetryGo fn retries i remaining = Except.error (err (retries - 1)) ∧
      withRetryCallsGo fn retries i remaining = List.range' i remaining := by
  intro remaining
  induction remaining with
  | zero => intro i hsum hr; omega
  | succ r ih =>
    intro i hsum hr
    by_cases hlast : i = retries - 1
    · have hr0 : r = 0 := by omega
      subst hr0
      subst hlast
      constructor
      · simp [withRetryGo, h (retries - 1)]
      · simp [withRetryCallsGo, h (retries - 1), List.range']
    · have hr1 : 1 ≤ r := by omega
      have hrec := ih (i + 1) (by omega) hr1
      constructor
      · simp [withRetryGo, h i, hlast, hrec.1]
      · simp [withRetryCallsGo, h i, hlast, hrec.2, List.range']

/-- C7: an operation that throws on every invocation is invoked exactly
`retries` times (attempt indices 0 .. retries-1) and the error of the
final attempt is propagated verbatim. -/
theorem withRetry_always_throws {ε α : Type} (fn : Nat → Except ε α)
    (err : Nat → ε) (h : ∀ k, fn k = Except.error (err k))
    (retries delay : Nat) (hr : 1 ≤ retries) :
    withRetry fn retries delay = Except.error (err (retries - 1)) ∧
    withRetryCalls fn retries = List.range retries := by
  have hgo := withRetryGo_all_error fn err h retries retries 0 (by omega) hr
  exact ⟨hgo.1, by rw [withRetryCalls, hgo.2, List.range_eq_range']⟩

/-- C7 witness: `withRetry(op, 2, 0)` with an always-failing `op`
invokes it at attempts 0 and 1 and surfaces the second attempt's error. -/
theorem withRetry_always_throws_witness :
    withRetry (fun i => (Except.error i : Except Nat Nat)) 2 0 =
      Except.error 1 ∧
    withRetryCalls (fun i => (Except.error i : Except Nat Nat)) 2 = [0, 1] := by
  have := withRetry_always_throws (fun i => (Except.error i : Except Nat Nat))
    (fun i => i) (fun k => rfl) 2 0 (by decide)
  exact ⟨this.1, this.2.trans rfl⟩

/-- C8 (code bug record): the source ignores the options argument, so
with `{hex: true}` a missing source yields `undefined` instead of an
error, and a present source is returned as the native address value,
never as a raw hex string. -/
theorem getTxSender_ignores_options :
    getTxSender ⟨some ⟨⟨MsgType.externalIn, none, none⟩, ⟨[]⟩⟩⟩ ⟨true⟩ = none ∧
    getTxSender ⟨some ⟨⟨MsgType.internal, some ⟨"0:raw"⟩, none⟩, ⟨[]⟩⟩⟩ ⟨true⟩ =
      some ⟨"0:raw"⟩ ∧
    getTxSender ⟨none⟩ ⟨false⟩ = none :=
  ⟨rfl, rfl, rfl⟩

/-- C9: each classifier is true exactly on its tag, all three are false
without an incoming message, and with one exactly one of them holds. -/
theorem direction_classifiers (tx : Transaction) :
    (tx.inMessage = none →
      isInternal tx = false ∧ isExternalOut tx = false ∧
        isExternalIn tx = false) ∧
    (∀ inMsg : Message, tx.inMessage = some inMsg →
      (isInternal tx = true ↔ inMsg.info.type = MsgType.internal) ∧
      (isExternalOut tx = true ↔ inMsg.info.type = MsgType.externalOut) ∧
      (isExternalIn tx = true ↔ inMsg.info.type = MsgType.externalIn) ∧
      ((isInternal tx = true ∧ isExternalOut tx = false ∧
          isExternalIn tx = false) ∨
       (isInternal tx = false ∧ isExternalOut tx = true ∧
          isExternalIn tx = false) ∨
       (isInternal tx = false ∧ isExternalOut tx = false ∧
          isExternalIn tx = true))) := by
  constructor
  · intro h
    simp [isInternal, isExternalOut, isExternalIn, h]
  · intro inMsg h
    cases htype : inMsg.info.type <;>
      simp [isInternal, isExternalOut, isExternalIn, h, htype]

/-- C9 witness: the classifiers at a transaction with no incoming
message and at an internal one. -/
theorem direction_classifiers_witness :
    (isInternal ⟨none⟩ = false ∧ isExternalOut ⟨none⟩ = false ∧
      isExternalIn ⟨none⟩ = false) ∧
    (isInternal ⟨some ⟨⟨MsgType.internal, none, none⟩, ⟨[]⟩⟩⟩ = true ↔
      (⟨⟨MsgType.internal, none, none⟩, ⟨[]⟩⟩ : Message).info.type =
        MsgType.internal) :=
  ⟨(direction_classifiers ⟨none⟩).1 rfl,
   (((direction_classifiers ⟨some ⟨⟨MsgType.internal, none, none⟩, ⟨[]⟩⟩⟩).2
      ⟨⟨MsgType.internal, none, none⟩, ⟨[]⟩⟩ rfl).1)⟩

/-- C10: with a retries argument of 0 the loop body never runs: `fn` is
never invoked and the promise resolves to `undefined` without
throwing. -/
theorem withRetry_zero_retries {ε α : Type} (fn : Nat → Except ε α)
    (delay : Nat) :
    withRetry fn 0 delay = Except.ok none ∧ withRetryCalls fn 0 = [] :=
  ⟨rfl, rfl⟩
